import Mathlib

/-!
Verification of the zakzak adaptive benchmarking engine.

This file gives a shallow embedding of the measurement core:

* `Zakzak.Analytics` — the statistics layer (`analytics.ts`): mean, median,
  mode, min/max, sample standard deviation, standard error, margin of error
  and the Student-t lookup table.
* `Zakzak.Benchmark` — the calibration / sampling loops and `Benchmark.start`
  (`benchmark.ts`), modelled as pure functions of a timing oracle
  `oracle : ℕ → ℚ` giving the elapsed time of the k-th call to `execute`,
  with the unbounded `while` loops given explicit fuel (the JS loops can
  genuinely diverge for adversarial timings).
* the option-merge semantics of the `Benchmark` constructor,
* the declaration pass of `SuiteManager` (`suite-manager.ts`),
* the exit handler of `BenchmarkProcess` (`benchmark-process.ts`).

Numbers are embedded as exact rationals; the square root forces `ℝ` for the
standard-deviation/standard-error/margin-of-error layer.  Division follows
the Mathlib convention `x / 0 = 0` (JS produces `NaN`/`Infinity` there; no
claim below depends on such inputs except where noted).  JS `Math.round`
(round half towards +∞) is embedded as `jsRound x = ⌊x + 1/2⌋`.
-/

namespace Zakzak

/-! ### A stable ascending sort (embedding of lodash `orderBy`) -/

/-- Stable insertion of `x` into `l`: `x` goes before the first strictly
greater element, hence after all equal elements (stability). -/
def insertSorted {α : Type} [LinearOrder α] (x : α) : List α → List α
  | [] => [x]
  | y :: t => if x < y then x :: y :: t else y :: insertSorted x t

/-- Stable ascending insertion sort, the embedding of lodash `_.orderBy(samples)`
used by `Analytics.getMedian`. -/
def sortAsc {α : Type} [LinearOrder α] (l : List α) : List α := l.foldr insertSorted []

namespace Analytics

/-- JS `Math.round`: round to the nearest integer, halves towards plus
infinity. -/
def jsRound (x : ℚ) : ℤ := ⌊x + 1 / 2⌋

/-- Embedding of `Analytics.getMin` (lodash `_.min`); `0` stands for the JS
`undefined` returned on an empty array. -/
def getMin : List ℚ → ℚ
  | [] => 0
  | a :: t => t.foldl min a

/-- Embedding of `Analytics.getMax` (lodash `_.max`); `0` stands for the JS
`undefined` returned on an empty array. -/
def getMax : List ℚ → ℚ
  | [] => 0
  | a :: t => t.foldl max a

/-- Embedding of `Analytics.getMean` (lodash `_.mean`): sum divided by
length. -/
def getMean (samples : List ℚ) : ℚ := samples.sum / samples.length

/-- Embedding of `Analytics.getMedian`: sort ascending; for even length the
average of the two central elements, for odd length the central element. -/
def getMedian (samples : List ℚ) : ℚ :=
  let sorted := sortAsc samples
  if sorted.length % 2 = 0 then
    (sorted.getD (sorted.length / 2) 0 + sorted.getD (sorted.length / 2 - 1) 0) / 2
  else
    sorted.getD ((sorted.length - 1) / 2) 0

/-- Distinct values of `l` in first-occurrence order (JS object key insertion
order, as produced by lodash `_.groupBy`). -/
def distinctFirst (l : List ℤ) : List ℤ :=
  l.foldl (fun acc x => if x ∈ acc then acc else acc ++ [x]) []

/-- JS object key iteration order for integer-valued keys: non-negative keys
(array indices) in ascending numeric order first, then the remaining keys in
insertion order. -/
def objKeyOrder (ks : List ℤ) : List ℤ :=
  sortAsc (ks.filter (fun k => 0 ≤ k)) ++ ks.filter (fun k => k < 0)

/-- lodash `_.maxBy(pairs, p => p[1].length)`: first key (in `keys` order)
whose group in `l` has the strictly largest size seen so far. -/
def maxByCount (l : List ℤ) (keys : List ℤ) : Option ℤ :=
  (keys.foldl (fun best k =>
    match best with
    | none => some (k, l.count k)
    | some (bk, bc) => if bc < l.count k then some (k, l.count k) else some (bk, bc))
    none).map Prod.fst

/-- Embedding of `Analytics.getMode`: round every sample to the nearest
integer, group by value, return (the first element of) the largest group;
`0` stands for the JS crash on an empty array. -/
def getMode (samples : List ℚ) : ℚ :=
  let rounded := samples.map jsRound
  match maxByCount rounded (objKeyOrder (distinctFirst rounded)) with
  | some k => (k : ℚ)
  | none => 0

/-- The eleven confidence levels of the `ConfidenceLevel` union type. -/
inductive ConfidenceLevel where
  | c0 | c50 | c60 | c70 | c80 | c90 | c95 | c98 | c99 | c998 | c999
deriving DecidableEq, Fintype

/-- Numeric value of a confidence level. -/
def ConfidenceLevel.val : ConfidenceLevel → ℚ
  | .c0 => 0
  | .c50 => 50
  | .c60 => 60
  | .c70 => 70
  | .c80 => 80
  | .c90 => 90
  | .c95 => 95
  | .c98 => 98
  | .c99 => 99
  | .c998 => 99.8
  | .c999 => 99.9

/-- The `confidenceLevels` array of `Analytics.getTScore`. -/
def confidenceLevels : List ℚ := [0, 50, 60, 70, 80, 90, 95, 98, 99, 99.8, 99.9]

/-- Column index of a confidence level: `confidenceLevels.indexOf(confidence)`. -/
def confidenceIndex (c : ConfidenceLevel) : ℕ := confidenceLevels.indexOf c.val

/-- One row of the t-table: degrees of freedom (`none` embeds the JS
`Infinity` of the last row) and the eleven t-scores. -/
structure TTableRow where
  df : Option ℤ
  tValues : List ℚ
deriving DecidableEq

/-- The `row.df >= df` test of the lookup loop; the `Infinity` row compares
greater-or-equal to everything. -/
def dfGe (rowDf : Option ℤ) (df : ℤ) : Bool :=
  match rowDf with
  | none => true
  | some d => decide (df ≤ d)

/-- The fixed Student's-t table `Analytics.tTable`. -/
def tTable : List TTableRow :=
  [⟨some 1, [0.0, 1.0, 1.376, 1.963, 3.078, 6.314, 12.71, 31.82, 63.66, 318.31, 636.62]⟩,
   ⟨some 2, [0.0, 0.816, 1.061, 1.386, 1.886, 2.92, 4.303, 6.965, 9.925, 22.327, 31.599]⟩,
   ⟨some 3, [0.0, 0.765, 0.978, 1.25, 1.638, 2.353, 3.182, 4.541, 5.841, 10.215, 12.924]⟩,
   ⟨some 4, [0.0, 0.741, 0.941, 1.19, 1.533, 2.132, 2.776, 3.747, 4.604, 7.173, 8.61]⟩,
   ⟨some 5, [0.0, 0.727, 0.92, 1.156, 1.476, 2.015, 2.571, 3.365, 4.032, 5.893, 6.869]⟩,
   ⟨some 6, [0.0, 0.718, 0.906, 1.134, 1.44, 1.943, 2.447, 3.143, 3.707, 5.208, 5.959]⟩,
   ⟨some 7, [0.0, 0.711, 0.896, 1.119, 1.415, 1.895, 2.365, 2.998, 3.499, 4.785, 5.408]⟩,
   ⟨some 8, [0.0, 0.706, 0.889, 1.108, 1.397, 1.86, 2.306, 2.896, 3.355, 4.501, 5.041]⟩,
   ⟨some 9, [0.0, 0.703, 0.883, 1.1, 1.383, 1.833, 2.262, 2.821, 3.25, 4.297, 4.781]⟩,
   ⟨some 10, [0.0, 0.7, 0.879, 1.093, 1.372, 1.812, 2.228, 2.764, 3.169, 4.144, 4.587]⟩,
   ⟨some 11, [0.0, 0.697, 0.876, 1.088, 1.363, 1.796, 2.201, 2.718, 3.106, 4.025, 4.437]⟩,
   ⟨some 12, [0.0, 0.695, 0.873, 1.083, 1.356, 1.782, 2.179, 2.681, 3.055, 3.93, 4.318]⟩,
   ⟨some 13, [0.0, 0.694, 0.87, 1.079, 1.35, 1.771, 2.16, 2.65, 3.012, 3.852, 4.221]⟩,
   ⟨some 14, [0.0, 0.692, 0.868, 1.076, 1.345, 1.761, 2.145, 2.624, 2.977, 3.787, 4.14]⟩,
   ⟨some 15, [0.0, 0.691, 0.866, 1.074, 1.341, 1.753, 2.131, 2.602, 2.947, 3.733, 4.073]⟩,
   ⟨some 16, [0.0, 0.69, 0.865, 1.071, 1.337, 1.746, 2.12, 2.583, 2.921, 3.686, 4.015]⟩,
   ⟨some 17, [0.0, 0.689, 0.863, 1.069, 1.333, 1.74, 2.11, 2.567, 2.898, 3.646, 3.965]⟩,
   ⟨some 18, [0.0, 0.688, 0.862, 1.067, 1.33, 1.734, 2.101, 2.552, 2.878, 3.61, 3.922]⟩,
   ⟨some 19, [0.0, 0.688, 0.861, 1.066, 1.328, 1.729, 2.093, 2.539, 2.861, 3.579, 3.883]⟩,
   ⟨some 20, [0.0, 0.687, 0.86, 1.064, 1.325, 1.725, 2.086, 2.528, 2.845, 3.552, 3.85]⟩,
   ⟨some 21, [0.0, 0.686, 0.859, 1.063, 1.323, 1.721, 2.08, 2.518, 2.831, 3.527, 3.819]⟩,
   ⟨some 22, [0.0, 0.686, 0.858, 1.061, 1.321, 1.717, 2.074, 2.508, 2.819, 3.505, 3.792]⟩,
   ⟨some 23, [0.0, 0.685, 0.858, 1.06, 1.319, 1.714, 2.069, 2.5, 2.807, 3.485, 3.768]⟩,
   ⟨some 24, [0.0, 0.685, 0.857, 1.059, 1.318, 1.711, 2.064, 2.492, 2.797, 3.467, 3.745]⟩,
   ⟨some 25, [0.0, 0.684, 0.856, 1.058, 1.316, 1.708, 2.06, 2.485, 2.787, 3.45, 3.725]⟩,
   ⟨some 26, [0.0, 0.684, 0.856, 1.058, 1.315, 1.706, 2.056, 2.479, 2.779, 3.435, 3.707]⟩,
   ⟨some 27, [0.0, 0.684, 0.855, 1.057, 1.314, 1.703, 2.052, 2.473, 2.771, 3.421, 3.69]⟩,
   ⟨some 28, [0.0, 0.683, 0.855, 1.056, 1.313, 1.701, 2.048, 2.467, 2.763, 3.408, 3.674]⟩,
   ⟨some 29, [0.0, 0.683, 0.854, 1.055, 1.311, 1.699, 2.045, 2.462, 2.756, 3.396, 3.659]⟩,
   ⟨some 30, [0.0, 0.683, 0.854, 1.055, 1.31, 1.697, 2.042, 2.457, 2.75, 3.385, 3.646]⟩,
   ⟨some 40, [0.0, 0.681, 0.851, 1.05, 1.303, 1.684, 2.021, 2.423, 2.704, 3.307, 3.551]⟩,
   ⟨some 60, [0.0, 0.679, 0.848, 1.045, 1.296, 1.671, 2.0, 2.39, 2.66, 3.232, 3.46]⟩,
   ⟨some 80, [0.0, 0.678, 0.846, 1.043, 1.292, 1.664, 1.99, 2.374, 2.639, 3.195, 3.416]⟩,
   ⟨some 100, [0.0, 0.677, 0.845, 1.042, 1.29, 1.66, 1.984, 2.364, 2.626, 3.174, 3.39]⟩,
   ⟨some 1000, [0.0, 0.675, 0.842, 1.037, 1.282, 1.646, 1.962, 2.33, 2.581, 3.098, 3.3]⟩,
   ⟨none, [0.0, 0.674, 0.842, 1.036, 1.282, 1.645, 1.96, 2.326, 2.576, 3.09, 3.291]⟩]

/-- Embedding of `Analytics.getTScore`.  The source loop runs
`for (i = 0; i < tTable.length - 1; i++)`, so it searches `tTable.dropLast`
— the final `Infinity` row is never examined — and falls through to `0`. -/
def getTScore (samples : List ℚ) (confidence : ConfidenceLevel) : ℚ :=
  let df : ℤ := (samples.length : ℤ) - 1
  match (tTable.dropLast).find? (fun row => dfGe row.df df) with
  | some row => row.tValues.getD (confidenceIndex confidence) 0
  | none => 0

/-- Embedding of `Analytics.getStandardDeviation`: square root of the sum of
squared deviations from the mean divided by `n - 1`. -/
noncomputable def getStandardDeviation (samples : List ℚ) : ℝ :=
  let mean := getMean samples
  let squaredDeviations := (samples.map (fun s => (s - mean) ^ 2)).sum
  Real.sqrt ((squaredDeviations / ((samples.length : ℚ) - 1) : ℚ))

/-- Embedding of `Analytics.getStandardError`: standard deviation divided by
the raw sample count `n` (not `√n`). -/
noncomputable def getStandardError (samples : List ℚ) : ℝ :=
  getStandardDeviation samples / (samples.length : ℝ)

/-- Embedding of `Analytics.getMarginOfError`: standard error times the
t-score; the source defaults `confidence` to `99`. -/
noncomputable def getMarginOfError (samples : List ℚ)
    (confidence : ConfidenceLevel := .c99) : ℝ :=
  getStandardError samples * (getTScore samples confidence : ℚ)

/-- JS-float-faithful margin of error, with `none` embedding the JS `NaN`.
On arrays of length ≤ 1 the source hits `NaN`: for `n = 1` the variance is
`squaredDeviations / (n - 1) = 0 / 0 = NaN` (the squared deviations from the
mean of a singleton are exactly `0`), and for `n = 0` already the mean is
`0 / 0`; `Math.sqrt`, the division by `n` and the t-score product all
propagate it.  For `n ≥ 2` the denominator `n - 1` is a positive number, every
intermediate value is a finite float, and the exact value is
`getMarginOfError`. -/
noncomputable def getMarginOfErrorFloat (samples : List ℚ)
    (confidence : ConfidenceLevel := .c99) : Option ℝ :=
  if samples.length ≤ 1 then none else some (getMarginOfError samples confidence)

/-- Embedding of `Analytics.reduceUncertainty`. -/
def reduceUncertainty (smallestMeasure fractionOfUncertainty : ℚ) : ℚ :=
  let uncertainty := smallestMeasure / 2
  uncertainty / fractionOfUncertainty

/-- The `FullAnalysis` record; the square-root-derived fields live in `ℝ`. -/
structure FullAnalysis where
  min : ℚ
  max : ℚ
  marginOfError : ℝ
  standardDeviation : ℝ
  standardError : ℝ
  mean : ℚ
  mode : ℚ
  median : ℚ

/-- Embedding of `Analytics.getFullAnalysis`. -/
noncomputable def getFullAnalysis (samples : List ℚ) : FullAnalysis :=
  { min := getMin samples
    max := getMax samples
    marginOfError := getMarginOfError samples
    standardDeviation := getStandardDeviation samples
    standardError := getStandardError samples
    mean := getMean samples
    mode := getMode samples
    median := getMedian samples }

end Analytics

/-! ### The benchmark engine (`benchmark.ts`)

The measured function and the clock are abstracted into a timing oracle
`oracle : ℕ → ℚ`: the k-th call to `Benchmark.execute` (in program order)
takes `oracle k` nanoseconds.  Loops without a structural bound get fuel. -/

/-- Runtime options consumed by the calibration / sampling loops, with the
sample counts as naturals (the schema requires integral counts ≥ 1). -/
structure RunOptions where
  minTime : ℚ
  maxTime : ℚ
  minSamples : ℕ
  maxSamples : ℕ

namespace Benchmark

/-- Embedding of one step of `Benchmark.cycle` given the measured batch
time: compute the per-execution `period` and the projected `nextCount`;
continue (`finished = false`) while `time ≤ minTime`, else stop with the
current count. -/
def cycle (count : ℤ) (time minTime : ℚ) : ℤ × Bool :=
  let period := time / (count : ℚ)
  let timeLeft := minTime - time
  let nextCount := count + (if time ≤ 0 then count * 100 else ⌈timeLeft / period⌉)
  if time ≤ minTime then (nextCount, false) else (count, true)

/-- The `while (result.finished === false)` loop of `Benchmark.getMaxCycles`,
with explicit fuel; returns the final count plus the next oracle index. -/
def getMaxCyclesLoop (oracle : ℕ → ℚ) (minTime : ℚ) :
    ℕ → ℤ → ℕ → Option (ℤ × ℕ)
  | 0, _, _ => none
  | fuel + 1, count, idx =>
    match cycle count (oracle idx) minTime with
    | (c, true) => some (c, idx + 1)
    | (c, false) => getMaxCyclesLoop oracle minTime fuel c (idx + 1)

/-- Embedding of `Benchmark.getMaxCycles`: start from `count = 1`. -/
def getMaxCycles (oracle : ℕ → ℚ) (minTime : ℚ) (fuel : ℕ) : Option (ℤ × ℕ) :=
  getMaxCyclesLoop oracle minTime fuel 1 0

/-- The second loop of `Benchmark.getSamples`
(`while (sum(samples) < maxTime && samples.length < maxSamples)`), run on the
structurally decreasing gas `maxSamples - samples.length`, which is `0`
exactly when the length guard fails. -/
def extraGo (oracle : ℕ → ℚ) (maxTime : ℚ) : ℕ → ℕ → List ℚ → List ℚ
  | 0, _, samples => samples
  | gas + 1, idx, samples =>
    if samples.sum < maxTime then
      extraGo oracle maxTime gas (idx + 1) (samples ++ [oracle idx])
    else samples

/-- Embedding of `Benchmark.getSamples`: collect `minSamples` rounds
unconditionally, then more while under `maxTime` and `maxSamples`.
`startIdx` is the oracle index of the first round. -/
def getSamples (oracle : ℕ → ℚ) (startIdx minSamples maxSamples : ℕ)
    (maxTime : ℚ) : List ℚ :=
  let initial := (List.range minSamples).map (fun k => oracle (startIdx + k))
  extraGo oracle maxTime (maxSamples - initial.length) (startIdx + minSamples) initial

/-- The sampling pipeline of `Benchmark.start` up to (and excluding) the
statistics: resolve `minTime`, calibrate the cycle count, collect samples and
normalize them by the count.  `resolution` is the measured timer resolution. -/
def startRun (oracle : ℕ → ℚ) (resolution : ℚ) (opts : RunOptions)
    (fuel : ℕ) : Option (ℤ × List ℚ) :=
  let minTime := max (Analytics.reduceUncertainty resolution (1 / 100)) opts.minTime
  match getMaxCycles oracle minTime fuel with
  | none => none
  | some (optimalCount, idx) =>
    let samples := (getSamples oracle idx opts.minSamples opts.maxSamples
      opts.maxTime).map (fun sample => sample / (optimalCount : ℚ))
    some (optimalCount, samples)

/-- The fields of `BenchmarkResult` that the engine computes (the metadata
fields `id`, `name`, `filename`, `options` are pass-through and omitted). -/
structure Result where
  count : ℤ
  times : List ℚ
  stats : Analytics.FullAnalysis

/-- Embedding of `Benchmark.start`: one calibration pass, one sampling pass,
one analysis, straight into the returned result. -/
noncomputable def start (oracle : ℕ → ℚ) (resolution : ℚ) (opts : RunOptions)
    (fuel : ℕ) : Option Result :=
  (startRun oracle resolution opts fuel).map
    (fun p => ⟨p.1, p.2, Analytics.getFullAnalysis p.2⟩)

end Benchmark

/-- Modelled from the spec: the §4.4 acceptance criterion
`marginOfError(samples, 99.9) ≤ mean * 0.1 AND |median − mean| ≤ mean * 0.1`.
No such check exists anywhere in the source. -/
noncomputable def acceptanceCheck (samples : List ℚ) : Prop :=
  Analytics.getMarginOfError samples .c999 ≤ (Analytics.getMean samples : ℝ) * (1 / 10) ∧
  |Analytics.getMedian samples - Analytics.getMean samples| ≤
    Analytics.getMean samples * (1 / 10)

/-! ### Option resolution in the `Benchmark` constructor

`DefaultBenchmarkOptions` lives in the config module, which is not part of
the given sources, so the defaults are an arbitrary parameter here.  The
constructor runs
`mergeWith({}, DefaultBenchmarkOptions, options, { minSamples }, (a, b) => b === null ? a : undefined)`
where the local `minSamples` is `undefined` when `options.minSamples` is
nullish and otherwise clamps values `< 1` to the default.  For the scalar
option fields this lodash merge reads: later sources override, except that
`null`/`undefined` source values inherit the accumulated value. -/

/-- Fully resolved benchmark options (every field present), with JS numbers
as rationals. -/
structure BenchmarkOptions where
  minTime : ℚ
  maxTime : ℚ
  minSamples : ℚ
  maxSamples : ℚ

/-- A user-supplied options object; `none` is a `null`/absent field. -/
structure PartialBenchmarkOptions where
  minTime : Option ℚ
  maxTime : Option ℚ
  minSamples : Option ℚ
  maxSamples : Option ℚ

/-- One scalar field of the lodash `mergeWith` above: a non-null source value
overrides, a null/undefined one inherits. -/
def mergeField (base : ℚ) (src : Option ℚ) : ℚ := src.getD base

/-- Embedding of the `Benchmark` constructor's option resolution
(`this.options`, as returned by `getOptions()`). -/
def Benchmark.resolveOptions (defaults : BenchmarkOptions)
    (options : Option PartialBenchmarkOptions) : BenchmarkOptions :=
  match options with
  | none => defaults
  | some o =>
    let minSamples : Option ℚ :=
      match o.minSamples with
      | some v => some (if 1 ≤ v then v else defaults.minSamples)
      | none => none
    { minTime := mergeField defaults.minTime o.minTime
      maxTime := mergeField defaults.maxTime o.maxTime
      minSamples := mergeField (mergeField defaults.minSamples o.minSamples) minSamples
      maxSamples := mergeField defaults.maxSamples o.maxSamples }

/-! ### The declaration pass of `SuiteManager` (`suite-manager.ts`)

`addFiles` seeds the ancestor stack with a root suite named after the file,
then runs the file as a declaration script.  `addSuite` pushes its suite
(after computing `id = join(currentPath.map(v => v.name) ++ [name], ":")`),
synchronously runs the nested declarations, and pops; `addBenchmark` records
a benchmark under the analogous id without pushing.  Declarations are
embedded as a tree. -/

/-- A declaration made while a benchmark definition file is loaded. -/
inductive Decl where
  | suite (name : String) (body : List Decl)
  | bench (name : String)

/-- The identifying fields of a registered benchmark. -/
structure BenchmarkEntry where
  id : String
  name : String
  filename : String
deriving DecidableEq

mutual

/-- Benchmarks registered by one declaration, given the current ancestor
name stack `path` (file suite first). -/
def runDecl (filename : String) (path : List String) : Decl → List BenchmarkEntry
  | .bench name =>
    [{ id := String.intercalate ":" (path ++ [name]), name := name, filename := filename }]
  | .suite name body => runDeclList filename (path ++ [name]) body

/-- Benchmarks registered by a sequence of declarations, in order. -/
def runDeclList (filename : String) (path : List String) :
    List Decl → List BenchmarkEntry
  | [] => []
  | d :: rest => runDecl filename path d ++ runDeclList filename path rest

end

/-- Embedding of `SuiteManager.addFiles`: each file's declaration pass runs
with the stack seeded by a root suite whose name is the filename. -/
def addFiles (files : List (String × List Decl)) : List BenchmarkEntry :=
  files.foldl (fun acc file => acc ++ runDeclList file.1 [file.1] file.2) []

/-! ### The exit handler of `BenchmarkProcess` (`benchmark-process.ts`) -/

/-- The worker-to-parent `ExitMessage`; exactly one of `result` / `error`
is meant to be populated, but the type does not enforce it. -/
structure ExitMessage (R E : Type) where
  result : Option R
  error : Option E
deriving DecidableEq

/-- What the parent's `exit` handler does: resolve the promise, reject it,
or itself crash on an undefined dereference. -/
inductive ExitOutcome (R E : Type) where
  | resolved (message : Option (ExitMessage R E))
  | rejected (error : Option E)
  | handlerCrashed
deriving DecidableEq

/-- Embedding of the `child.on("exit", code => ...)` handler installed by
`BenchmarkProcess.startProcess`: `code === 0` resolves with the buffered
message (possibly still undefined); otherwise it evaluates
`this.message.error`, which is a `TypeError` crash when no `ExitMessage` was
ever buffered. -/
def handleExit {R E : Type} (buffered : Option (ExitMessage R E)) (code : ℤ) :
    ExitOutcome R E :=
  if code = 0 then .resolved buffered
  else
    match buffered with
    | some message => .rejected message.error
    | none => .handlerCrashed

/-- Modelled from the spec: the sample standard deviation as §4.1 words it —
"divide the sum of squared deviations from the mean by `(n − 1)`" (and take
the square root), with the mean written out as sum over length. -/
noncomputable def specSampleStdDev (samples : List ℚ) : ℝ :=
  Real.sqrt (((samples.map
    (fun x => (x - samples.sum / samples.length) ^ 2)).sum /
      ((samples.length : ℚ) - 1) : ℚ))

/-- JS `<=` on possibly-`NaN` numbers (`none` = `NaN`): the comparison is
true iff both operands are actual numbers and the inequality holds — every
comparison involving `NaN` is false in JS. -/
def jsLe (a b : Option ℝ) : Prop :=
  ∃ x, a = some x ∧ ∃ y, b = some y ∧ x ≤ y

/-- The column index each confidence level should get, written out; used to
evaluate `confidenceIndex` case by case. -/
def confidenceIndexSpec : Analytics.ConfidenceLevel → ℕ
  | .c0 => 0
  | .c50 => 1
  | .c60 => 2
  | .c70 => 3
  | .c80 => 4
  | .c90 => 5
  | .c95 => 6
  | .c98 => 7
  | .c99 => 8
  | .c998 => 9
  | .c999 => 10

/-- A concrete timing oracle: the calibration call sees 2 ns, the three
sampling rounds see 1, 1 and 10 ns. -/
def oracleC1 : ℕ → ℚ := fun n => [2, 1, 1, 10].getD n 0

/-! ## Lemmas about the embedding -/

theorem length_insertSorted {α : Type} [LinearOrder α] (x : α) (l : List α) :
    (insertSorted x l).length = l.length + 1 := by
  induction l with
  | nil => rfl
  | cons y t ih =>
    simp only [insertSorted]
    by_cases h : x < y <;> simp [h, ih]

theorem length_sortAsc {α : Type} [LinearOrder α] (l : List α) :
    (sortAsc l).length = l.length := by
  induction l with
  | nil => rfl
  | cons y t ih => simp [sortAsc, List.foldr] at ih ⊢; simp [length_insertSorted, ih]

theorem mem_insertSorted {α : Type} [LinearOrder α] (x a : α) (l : List α) :
    a ∈ insertSorted x l ↔ a = x ∨ a ∈ l := by
  induction l with
  | nil => simp [insertSorted]
  | cons y t ih =>
    simp only [insertSorted]
    by_cases h : x < y
    · simp [h]
    · simp [h, ih]; tauto

theorem mem_sortAsc {α : Type} [LinearOrder α] (a : α) (l : List α) :
    a ∈ sortAsc l ↔ a ∈ l := by
  induction l with
  | nil => simp [sortAsc]
  | cons y t ih => simp [sortAsc, List.foldr] at ih ⊢; simp [mem_insertSorted, ih]

/-! ## C2 -/

set_option maxRecDepth 40000 in
/-- C2: the claim says samples with `n - 1 > 1000` degrees of freedom use the
`Infinity` row of the t-table.  They do not: the lookup loop stops one row
short of the table (`i < tTable.length - 1`), so for `df = 1001` no row ever
matches and the function falls through to `0`, while the dead `Infinity` row
holds `3.291` in the 99.9 column the lookup would have used. -/
theorem c2_infinity_row_unreachable :
    Analytics.getTScore (List.replicate 1002 0) .c999 = 0 ∧
    (Analytics.tTable.map (fun row => row.tValues.getD 10 0)).getLast? =
      some (3.291 : ℚ) ∧
    (0 : ℚ) ≠ (3.291 : ℚ) :=
  ⟨rfl, rfl, by norm_num⟩

/-! ## C3 -/

/-- C3: counterexample to the claimed fallback.  On a nonzero exit with no
buffered `ExitMessage` the handler does not produce a generic
"worker crashed without reporting" rejection — it dereferences the undefined
buffered message and crashes. -/
theorem c3_counterexample :
    handleExit (R := Unit) (E := String) none 1 = ExitOutcome.handlerCrashed ∧
    (ExitOutcome.handlerCrashed : ExitOutcome Unit String) ≠
      ExitOutcome.rejected (some "worker crashed without reporting") :=
  ⟨rfl, by simp⟩

/-- C3 (amended): the parent resolves with the buffered `ExitMessage` exactly
when the exit code is 0; on a nonzero code it rejects with the buffered
message's `error` field when a message was received, and when none was
received the handler itself crashes on an undefined dereference — there is no
generic fallback error. -/
theorem c3_exit_handler {R E : Type} (buffered : Option (ExitMessage R E)) (code : ℤ) :
    (code = 0 → handleExit buffered code = .resolved buffered) ∧
    (code ≠ 0 → ∀ m, buffered = some m → handleExit buffered code = .rejected m.error) ∧
    (code ≠ 0 → buffered = none → handleExit buffered code = .handlerCrashed) := by
  refine ⟨fun h => ?_, fun h m hm => ?_, fun h hn => ?_⟩ <;> simp [handleExit, h, *]

/-- C3 witness: a worker that exited with code 1 after buffering an error
message gets that error surfaced. -/
theorem c3_witness :
    handleExit (R := Unit) (E := String) (some ⟨none, some "boom"⟩) 1 =
      ExitOutcome.rejected (some "boom") :=
  (c3_exit_handler (some ⟨none, some "boom"⟩) 1).2.1 (by decide) ⟨none, some "boom"⟩ rfl

/-! ## C5 -/

/-- C5: counterexample to "the special case elapsed ≤ 0 jumps to
`count * 100`".  At `count = 1`, `time = 0`, `minTime = 100` the next count is
`count + count * 100 = 101`, not `1 * 100 = 100`. -/
theorem c5_counterexample :
    Benchmark.cycle 1 0 100 = (101, false) ∧ (101 : ℤ) ≠ 1 * 100 := by
  refine ⟨?_, by decide⟩
  norm_num [Benchmark.cycle]

/-- C5 (amended): one calibration step with measured batch time `time`:
if `time ≤ minTime` the step continues with
`count + ceil((minTime − time) · count / time)` — except that `time ≤ 0`
continues with `count + count * 100` (that is, 101·count, not count·100) —
and if `time > minTime` the search stops and returns the current count. -/
theorem c5_cycle_step (count : ℤ) (time minTime : ℚ) (hc : 0 < count) :
    (time ≤ 0 → time ≤ minTime →
      Benchmark.cycle count time minTime = (count + count * 100, false)) ∧
    (0 < time → time ≤ minTime →
      Benchmark.cycle count time minTime =
        (count + ⌈(minTime - time) * (count : ℚ) / time⌉, false)) ∧
    (minTime < time → Benchmark.cycle count time minTime = (count, true)) := by
  refine ⟨fun h0 hm => ?_, fun h0 hm => ?_, fun hgt => ?_⟩
  · simp [Benchmark.cycle, h0, hm]
  · have hne : time ≠ 0 := ne_of_gt h0
    have hcne : (count : ℚ) ≠ 0 := by exact_mod_cast hc.ne'
    simp only [Benchmark.cycle, if_neg (not_le.mpr h0), if_pos hm]
    rw [div_div_eq_mul_div]
  · simp [Benchmark.cycle, if_neg (not_le.mpr hgt)]

/-- C5 witness: a step at `count = 2`, `time = 3`, `minTime = 10` continues
with `2 + ⌈(10 − 3) · 2 / 3⌉`. -/
theorem c5_witness :
    Benchmark.cycle 2 3 10 = (2 + ⌈((10 : ℚ) - 3) * ((2 : ℤ) : ℚ) / 3⌉, false) :=
  (c5_cycle_step 2 3 10 (by decide)).2.1 (by norm_num) (by norm_num)

/-! ## C8 -/

/-- C8: declaring `suite("A", () => benchmark("b", fn))` during the
declaration pass of file `f.js` registers exactly one benchmark, whose id is
the colon-joined path `"f.js:A:b"`. -/
theorem c8_suite_id :
    addFiles [("f.js", [Decl.suite "A" [Decl.bench "b"]])] =
      [{ id := "f.js:A:b", name := "b", filename := "f.js" }] := by
  simp only [addFiles, List.foldl, runDecl, runDeclList]
  decide

/-! ## C10 -/

/-- C10: resolved options from the `Benchmark` constructor: a non-null
`minSamples < 1` is replaced by the default, null fields inherit the default,
and supplied values (with `minSamples ≥ 1`) win over the default. -/
theorem c10_option_resolution (defaults : BenchmarkOptions)
    (o : PartialBenchmarkOptions) :
    (∀ v, o.minSamples = some v → v < 1 →
      (Benchmark.resolveOptions defaults (some o)).minSamples = defaults.minSamples) ∧
    (o.minSamples = none →
      (Benchmark.resolveOptions defaults (some o)).minSamples = defaults.minSamples) ∧
    (∀ v, o.minSamples = some v → 1 ≤ v →
      (Benchmark.resolveOptions defaults (some o)).minSamples = v) ∧
    (o.minTime = none →
      (Benchmark.resolveOptions defaults (some o)).minTime = defaults.minTime) ∧
    (∀ v, o.minTime = some v →
      (Benchmark.resolveOptions defaults (some o)).minTime = v) ∧
    (o.maxTime = none →
      (Benchmark.resolveOptions defaults (some o)).maxTime = defaults.maxTime) ∧
    (∀ v, o.maxTime = some v →
      (Benchmark.resolveOptions defaults (some o)).maxTime = v) ∧
    (o.maxSamples = none →
      (Benchmark.resolveOptions defaults (some o)).maxSamples = defaults.maxSamples) ∧
    (∀ v, o.maxSamples = some v →
      (Benchmark.resolveOptions defaults (some o)).maxSamples = v) := by
  refine ⟨fun v hv hlt => ?_, fun hn => ?_, fun v hv hge => ?_, fun hn => ?_,
    fun v hv => ?_, fun hn => ?_, fun v hv => ?_, fun hn => ?_, fun v hv => ?_⟩ <;>
    simp [Benchmark.resolveOptions, mergeField, *]

/-- C10 witness: defaults `⟨1, 2, 3, 4⟩` with supplied options
`{ maxTime: 7, minSamples: 1/2 }`: the sub-1 `minSamples` falls back to the
default 3, the null `minTime` inherits 1, the supplied `maxTime` 7 wins. -/
theorem c10_witness :
    (Benchmark.resolveOptions ⟨1, 2, 3, 4⟩
      (some ⟨none, some 7, some (1 / 2), none⟩)).minSamples = 3 ∧
    (Benchmark.resolveOptions ⟨1, 2, 3, 4⟩
      (some ⟨none, some 7, some (1 / 2), none⟩)).minTime = 1 ∧
    (Benchmark.resolveOptions ⟨1, 2, 3, 4⟩
      (some ⟨none, some 7, some (1 / 2), none⟩)).maxTime = 7 := by
  have h := c10_option_resolution ⟨1, 2, 3, 4⟩ ⟨none, some 7, some (1 / 2), none⟩
  exact ⟨h.1 (1 / 2) rfl (by norm_num), h.2.2.2.1 rfl, h.2.2.2.2.2.2.1 7 rfl⟩

/-! ## C6 -/

theorem extraGo_length_ge (oracle : ℕ → ℚ) (maxTime : ℚ) (gas idx : ℕ)
    (samples : List ℚ) :
    samples.length ≤ (Benchmark.extraGo oracle maxTime gas idx samples).length := by
  induction gas generalizing idx samples with
  | zero => simp [Benchmark.extraGo]
  | succ g ih =>
    simp only [Benchmark.extraGo]
    by_cases h : samples.sum < maxTime
    · simp only [if_pos h]
      calc samples.length ≤ (samples ++ [oracle idx]).length := by simp
        _ ≤ _ := ih (idx + 1) (samples ++ [oracle idx])
    · simp [if_neg h]

theorem extraGo_length_le (oracle : ℕ → ℚ) (maxTime : ℚ) (gas idx : ℕ)
    (samples : List ℚ) :
    (Benchmark.extraGo oracle maxTime gas idx samples).length ≤
      samples.length + gas := by
  induction gas generalizing idx samples with
  | zero => simp [Benchmark.extraGo]
  | succ g ih =>
    simp only [Benchmark.extraGo]
    by_cases h : samples.sum < maxTime
    · simp only [if_pos h]
      calc (Benchmark.extraGo oracle maxTime g (idx + 1) (samples ++ [oracle idx])).length
          ≤ (samples ++ [oracle idx]).length + g := ih (idx + 1) _
        _ = samples.length + (g + 1) := by simp; omega
    · simp only [if_neg h]; omega

theorem extraGo_grew_of_guard (oracle : ℕ → ℚ) (maxTime : ℚ) (gas idx : ℕ)
    (samples : List ℚ)
    (h : samples.length < (Benchmark.extraGo oracle maxTime gas idx samples).length) :
    samples.sum < maxTime ∧ 0 < gas := by
  cases gas with
  | zero => simp [Benchmark.extraGo] at h
  | succ g =>
    refine ⟨?_, Nat.succ_pos g⟩
    by_contra hs
    simp [Benchmark.extraGo, if_neg hs] at h

/-- C6: counterexample to "never more than maxSamples samples, for every
options configuration": with `minSamples = 2`, `maxSamples = 1` the
unconditional first loop already collects 2 > 1 samples. -/
theorem c6_counterexample :
    (Benchmark.getSamples (fun _ => 0) 0 2 1 1000).length = 2 ∧ ¬((2 : ℕ) ≤ 1) :=
  ⟨rfl, by decide⟩

/-- C6 (amended): the sampling loop always returns at least `minSamples`
samples; provided `minSamples ≤ maxSamples` it never exceeds `maxSamples`
(so `minSamples = maxSamples = k` returns exactly `k` regardless of
`maxTime`); and samples beyond the unconditional first `minSamples` are
collected only when the loop guard held — the first `minSamples` samples
summed below `maxTime` and `minSamples < maxSamples`. -/
theorem c6_sample_count (oracle : ℕ → ℚ) (minSamples maxSamples : ℕ) (maxTime : ℚ) :
    minSamples ≤ (Benchmark.getSamples oracle 0 minSamples maxSamples maxTime).length ∧
    (minSamples ≤ maxSamples →
      (Benchmark.getSamples oracle 0 minSamples maxSamples maxTime).length ≤ maxSamples) ∧
    (minSamples = maxSamples →
      (Benchmark.getSamples oracle 0 minSamples maxSamples maxTime).length = minSamples) ∧
    (minSamples < (Benchmark.getSamples oracle 0 minSamples maxSamples maxTime).length →
      ((List.range minSamples).map (fun k => oracle (0 + k))).sum < maxTime ∧
        minSamples < maxSamples) := by
  have hlen : ((List.range minSamples).map (fun k => oracle (0 + k))).length
      = minSamples := by simp
  have hge := extraGo_length_ge oracle maxTime (maxSamples - minSamples)
    (0 + minSamples) ((List.range minSamples).map (fun k => oracle (0 + k)))
  have hle := extraGo_length_le oracle maxTime (maxSamples - minSamples)
    (0 + minSamples) ((List.range minSamples).map (fun k => oracle (0 + k)))
  rw [hlen] at hge hle
  simp only [Benchmark.getSamples]
  rw [hlen]
  refine ⟨hge, fun hcase => by omega, fun heq => by omega, fun hgrew => ?_⟩
  have h := extraGo_grew_of_guard oracle maxTime (maxSamples - minSamples)
    (0 + minSamples) ((List.range minSamples).map (fun k => oracle (0 + k)))
    (by rw [hlen]; exact hgrew)
  exact ⟨h.1, by omega⟩

/-- C6 witness: with `minSamples = 2 ≤ maxSamples = 3` the returned count is
between 2 and 3. -/
theorem c6_witness :
    2 ≤ (Benchmark.getSamples (fun _ => (1 : ℚ)) 0 2 3 0).length ∧
    (Benchmark.getSamples (fun _ => (1 : ℚ)) 0 2 3 0).length ≤ 3 :=
  ⟨(c6_sample_count (fun _ => 1) 2 3 0).1,
   (c6_sample_count (fun _ => 1) 2 3 0).2.1 (by decide)⟩

/-! ## C7 -/

/-- C7: the computed standard error is the sample standard deviation (sum of
squared deviations from the mean over `n − 1`, square-rooted) divided by the
raw count `n` — and, whenever the standard deviation is nonzero, this differs
from the classical `standardDeviation / √n`. -/
theorem c7_standard_error (samples : List ℚ) (h : 2 ≤ samples.length) :
    Analytics.getStandardError samples = specSampleStdDev samples / (samples.length : ℝ) ∧
    (specSampleStdDev samples ≠ 0 →
      Analytics.getStandardError samples ≠
        specSampleStdDev samples / Real.sqrt (samples.length)) := by
  have heq : Analytics.getStandardError samples =
      specSampleStdDev samples / (samples.length : ℝ) := rfl
  refine ⟨heq, fun hne => ?_⟩
  have hpos : 0 < specSampleStdDev samples :=
    lt_of_le_of_ne (Real.sqrt_nonneg _) (Ne.symm hne)
  have hlen : (2 : ℝ) ≤ (samples.length : ℝ) := by exact_mod_cast h
  have hsq : Real.sqrt (samples.length) < (samples.length : ℝ) := by
    rw [Real.sqrt_lt' (by linarith)]
    nlinarith
  have h0 : (0 : ℝ) < Real.sqrt (samples.length) :=
    Real.sqrt_pos.mpr (by linarith)
  have hlt : specSampleStdDev samples / (samples.length : ℝ) <
      specSampleStdDev samples / Real.sqrt (samples.length) :=
    div_lt_div_of_pos_left hpos h0 hsq
  rw [heq]
  exact ne_of_lt hlt

/-- C7 witness: instantiation at the two-sample array `[1, 2]`. -/
theorem c7_witness :
    2 ≤ ([1, 2] : List ℚ).length ∧
    Analytics.getStandardError [1, 2] =
      specSampleStdDev [1, 2] / ((([1, 2] : List ℚ).length : ℕ) : ℝ) :=
  ⟨by decide, (c7_standard_error [1, 2] (by decide)).1⟩

/-! ## C9 -/

theorem confidenceIndex_eq (c : Analytics.ConfidenceLevel) :
    Analytics.confidenceIndex c = confidenceIndexSpec c := by
  cases c <;>
    simp only [Analytics.confidenceIndex, Analytics.confidenceLevels,
      Analytics.ConfidenceLevel.val, confidenceIndexSpec, List.indexOf,
      List.findIdx, List.findIdx.go, Bool.cond_eq_ite, beq_iff_eq] <;>
    norm_num

theorem confidenceIndex_lt (c : Analytics.ConfidenceLevel) :
    Analytics.confidenceIndex c < 11 := by
  rw [confidenceIndex_eq]
  cases c <;> decide

theorem confidenceIndex_mono (c1 c2 : Analytics.ConfidenceLevel)
    (h : c1.val ≤ c2.val) :
    Analytics.confidenceIndex c1 ≤ Analytics.confidenceIndex c2 := by
  rw [confidenceIndex_eq, confidenceIndex_eq]
  revert h
  cases c1 <;> cases c2 <;> intro h <;>
    first
    | decide
    | norm_num [Analytics.ConfidenceLevel.val] at h

theorem ttable_tValues_sorted :
    ∀ row ∈ Analytics.tTable.dropLast, row.tValues.Pairwise (· ≤ ·) := by
  intro row hrow
  rw [← List.chain'_iff_pairwise]
  simp only [Analytics.tTable, List.dropLast] at hrow
  fin_cases hrow <;>
    norm_num [List.chain'_cons, List.chain'_singleton]

theorem ttable_tValues_length :
    ∀ row ∈ Analytics.tTable.dropLast, row.tValues.length = 11 := by
  intro row hrow
  simp only [Analytics.tTable, List.dropLast] at hrow
  fin_cases hrow <;> rfl

theorem getD_mono_of_pairwise (l : List ℚ) (hp : l.Pairwise (· ≤ ·)) (i j : ℕ)
    (hij : i ≤ j) (hj : j < l.length) : l.getD i 0 ≤ l.getD j 0 := by
  rcases Nat.lt_or_ge i j with hlt | hge
  · have hi : i < l.length := lt_trans hlt hj
    have h1 : l.getD i 0 = l.get ⟨i, hi⟩ := by
      simp [List.getD_eq_getElem?_getD, List.getElem?_eq_getElem hi, List.get_eq_getElem]
    have h2 : l.getD j 0 = l.get ⟨j, hj⟩ := by
      simp [List.getD_eq_getElem?_getD, List.getElem?_eq_getElem hj, List.get_eq_getElem]
    rw [h1, h2]
    exact List.pairwise_iff_get.mp hp ⟨i, hi⟩ ⟨j, hj⟩ hlt
  · have heq : i = j := le_antisymm hij hge
    rw [heq]

theorem getTScore_mono (samples : List ℚ) (c1 c2 : Analytics.ConfidenceLevel)
    (h : c1.val ≤ c2.val) :
    Analytics.getTScore samples c1 ≤ Analytics.getTScore samples c2 := by
  simp only [Analytics.getTScore]
  cases hfind : (Analytics.tTable.dropLast).find?
      (fun row => Analytics.dfGe row.df ((samples.length : ℤ) - 1)) with
  | none => exact le_refl 0
  | some row =>
    have hmem := List.mem_of_find?_eq_some hfind
    exact getD_mono_of_pairwise row.tValues (ttable_tValues_sorted row hmem)
      (Analytics.confidenceIndex c1) (Analytics.confidenceIndex c2)
      (confidenceIndex_mono c1 c2 h)
      (by rw [ttable_tValues_length row hmem]; exact confidenceIndex_lt c2)

theorem marginOfError_mono (samples : List ℚ)
    (c1 c2 : Analytics.ConfidenceLevel) (hc : c1.val ≤ c2.val) :
    Analytics.getMarginOfError samples c1 ≤ Analytics.getMarginOfError samples c2 := by
  have hse : (0 : ℝ) ≤ Analytics.getStandardError samples := by
    simp only [Analytics.getStandardError, Analytics.getStandardDeviation]
    positivity
  simp only [Analytics.getMarginOfError]
  have ht : ((Analytics.getTScore samples c1 : ℚ) : ℝ) ≤
      ((Analytics.getTScore samples c2 : ℚ) : ℝ) := by
    exact_mod_cast getTScore_mono samples c1 c2 hc
  exact mul_le_mul_of_nonneg_left ht hse

/-- C9: counterexample to monotonicity over *every* non-empty sample array.
At the singleton array `[1]` (reachable, since `minSamples` may be 1) the
source computes `sqrt(0/0) = NaN`, so the margin of error is `NaN` at every
confidence level and the JS comparison `NaN <= NaN` is false — the claimed
inequality fails at `c1 = 90 ≤ c2 = 95`. -/
theorem c9_counterexample :
    Analytics.ConfidenceLevel.c90.val ≤ Analytics.ConfidenceLevel.c95.val ∧
    Analytics.getMarginOfErrorFloat [1] .c90 = none ∧
    ¬ jsLe (Analytics.getMarginOfErrorFloat [1] .c90)
        (Analytics.getMarginOfErrorFloat [1] .c95) := by
  have h1 : Analytics.getMarginOfErrorFloat [1] .c90 = none := rfl
  refine ⟨by norm_num [Analytics.ConfidenceLevel.val], h1, ?_⟩
  rintro ⟨x, hx, -⟩
  rw [h1] at hx
  exact Option.noConfusion hx

/-- C9 (amended): for every fixed sample array of length at least 2 and
enumerated confidence levels with `c1 ≤ c2`, the (NaN-free) margin of error
is monotonically non-decreasing under the JS comparison: the standard error
is non-negative and every t-table row is sorted along the confidence columns.
Singleton arrays are excluded: there the source produces `NaN` and the
comparison is false. -/
theorem c9_moe_monotone (samples : List ℚ) (h : 2 ≤ samples.length)
    (c1 c2 : Analytics.ConfidenceLevel) (hc : c1.val ≤ c2.val) :
    jsLe (Analytics.getMarginOfErrorFloat samples c1)
      (Analytics.getMarginOfErrorFloat samples c2) := by
  have hn : ¬ samples.length ≤ 1 := by omega
  exact ⟨Analytics.getMarginOfError samples c1,
    by simp [Analytics.getMarginOfErrorFloat, hn],
    Analytics.getMarginOfError samples c2,
    by simp [Analytics.getMarginOfErrorFloat, hn],
    marginOfError_mono samples c1 c2 hc⟩

/-- C9 witness: on `[1, 2]` the margin of error at 90% is at most the one at
95%, both being actual numbers. -/
theorem c9_witness :
    2 ≤ ([1, 2] : List ℚ).length ∧
    jsLe (Analytics.getMarginOfErrorFloat [1, 2] .c90)
      (Analytics.getMarginOfErrorFloat [1, 2] .c95) :=
  ⟨by decide, c9_moe_monotone [1, 2] (by decide) .c90 .c95
    (by norm_num [Analytics.ConfidenceLevel.val])⟩

/-! ## C4 -/

theorem foldl_min_const (v : ℚ) (t : List ℚ) (h : ∀ x ∈ t, x = v) :
    t.foldl min v = v := by
  induction t with
  | nil => rfl
  | cons y t' ih =>
    have hy : y = v := h y (by simp)
    simp only [List.foldl_cons, hy, min_self]
    exact ih (fun x hx => h x (by simp [hx]))

theorem foldl_max_const (v : ℚ) (t : List ℚ) (h : ∀ x ∈ t, x = v) :
    t.foldl max v = v := by
  induction t with
  | nil => rfl
  | cons y t' ih =>
    have hy : y = v := h y (by simp)
    simp only [List.foldl_cons, hy, max_self]
    exact ih (fun x hx => h x (by simp [hx]))

theorem getD_of_all_eq (l : List ℚ) (v : ℚ) (h : ∀ x ∈ l, x = v) (k : ℕ)
    (hk : k < l.length) : l.getD k 0 = v := by
  have hget : l.getD k 0 = l.get ⟨k, hk⟩ := by
    simp [List.getD_eq_getElem?_getD, List.getElem?_eq_getElem hk, List.get_eq_getElem]
  rw [hget]
  exact h _ (l.get_mem _ _)

theorem foldl_distinct_of_mem (r : ℤ) (m : ℕ) (acc : List ℤ) (hmem : r ∈ acc) :
    List.foldl (fun acc x => if x ∈ acc then acc else acc ++ [x]) acc
      (List.replicate m r) = acc := by
  induction m with
  | zero => rfl
  | succ n ih => simp only [List.replicate_succ, List.foldl_cons, if_pos hmem, ih]

theorem distinctFirst_replicate (n : ℕ) (r : ℤ) (hn : n ≠ 0) :
    Analytics.distinctFirst (List.replicate n r) = [r] := by
  obtain ⟨m, rfl⟩ : ∃ m, n = m + 1 := ⟨n - 1, by omega⟩
  simp only [Analytics.distinctFirst, List.replicate_succ, List.foldl_cons,
    List.not_mem_nil, if_false, List.nil_append]
  exact foldl_distinct_of_mem r m [r] (by simp)

theorem objKeyOrder_singleton (r : ℤ) : Analytics.objKeyOrder [r] = [r] := by
  by_cases h : 0 ≤ r
  · simp [Analytics.objKeyOrder, List.filter, h, not_lt.mpr h, sortAsc, insertSorted]
  · simp [Analytics.objKeyOrder, List.filter, h, not_le.mp h, sortAsc, insertSorted]

theorem maxByCount_singleton (l : List ℤ) (r : ℤ) :
    Analytics.maxByCount l [r] = some r := rfl

theorem getMode_replicate (n : ℕ) (v : ℚ) (hn : n ≠ 0) :
    Analytics.getMode (List.replicate n v) = ((Analytics.jsRound v : ℤ) : ℚ) := by
  simp only [Analytics.getMode, List.map_replicate, distinctFirst_replicate n _ hn,
    objKeyOrder_singleton, maxByCount_singleton]

theorem getMean_const (s : List ℚ) (v : ℚ) (h1 : s ≠ []) (h2 : ∀ x ∈ s, x = v) :
    Analytics.getMean s = v := by
  have hs : s = List.replicate s.length v := List.eq_replicate_of_mem h2
  have hpos : 0 < s.length := List.length_pos.mpr h1
  have hne : ((s.length : ℚ)) ≠ 0 := Nat.cast_ne_zero.mpr (by omega)
  rw [Analytics.getMean]
  conv_lhs => rw [hs]
  rw [List.sum_replicate, List.length_replicate, nsmul_eq_mul]
  exact mul_div_cancel_left₀ v hne

theorem getMedian_const (s : List ℚ) (v : ℚ) (h1 : s ≠ []) (h2 : ∀ x ∈ s, x = v) :
    Analytics.getMedian s = v := by
  have hall : ∀ x ∈ sortAsc s, x = v := fun x hx => h2 x ((mem_sortAsc x s).mp hx)
  have hlen : (sortAsc s).length = s.length := length_sortAsc s
  have hpos : 0 < s.length := List.length_pos.mpr h1
  simp only [Analytics.getMedian]
  by_cases he : (sortAsc s).length % 2 = 0
  · rw [if_pos he]
    rw [getD_of_all_eq _ v hall _ (by rw [hlen]; omega),
      getD_of_all_eq _ v hall _ (by rw [hlen]; omega)]
    ring
  · rw [if_neg he]
    exact getD_of_all_eq _ v hall _ (by rw [hlen]; omega)

theorem sumSqDev_zero (s : List ℚ) (v : ℚ) (h2 : ∀ x ∈ s, x = v)
    (hm : Analytics.getMean s = v) :
    (s.map (fun x => (x - Analytics.getMean s) ^ 2)).sum = 0 := by
  apply List.sum_eq_zero
  intro y hy
  simp only [List.mem_map] at hy
  obtain ⟨x, hx, rfl⟩ := hy
  rw [hm, h2 x hx]
  ring

theorem moe_const (s : List ℚ) (v : ℚ) (h1 : s ≠ []) (h2 : ∀ x ∈ s, x = v)
    (c : Analytics.ConfidenceLevel) : Analytics.getMarginOfError s c = 0 := by
  have hsum := sumSqDev_zero s v h2 (getMean_const s v h1 h2)
  simp only [Analytics.getMarginOfError, Analytics.getStandardError,
    Analytics.getStandardDeviation, Analytics.getMean] at hsum ⊢
  rw [hsum]
  simp

/-- C4: counterexample to "mode == mean == v for constant sample arrays":
`getMode` rounds every sample to the nearest integer before grouping, so the
all-`1/2` array has mode `1` while its mean is `1/2`. -/
theorem c4_counterexample :
    Analytics.getMode [1 / 2, 1 / 2] = 1 ∧
    Analytics.getMean [1 / 2, 1 / 2] = 1 / 2 ∧ ((1 : ℚ) ≠ 1 / 2) := by
  refine ⟨?_, ?_, by norm_num⟩
  · have hr : Analytics.jsRound (1 / 2) = 1 := by norm_num [Analytics.jsRound]
    simp only [Analytics.getMode, List.map_cons, List.map_nil, hr]
    have hm : Analytics.maxByCount [1, 1]
        (Analytics.objKeyOrder (Analytics.distinctFirst [1, 1])) = some 1 := rfl
    rw [hm]
    norm_num
  · norm_num [Analytics.getMean, List.sum_cons, List.sum_nil]

/-- C4 (amended): for a non-empty sample array all of whose elements equal
`v`, the full analysis satisfies `mean = median = min = max = v` and
`marginOfError = 0`, while `mode = jsRound v` (the value rounded to the
nearest integer — equal to `v` exactly when `v` is an integer). -/
theorem c4_constant_samples (s : List ℚ) (v : ℚ) (h1 : s ≠ [])
    (h2 : ∀ x ∈ s, x = v) :
    (Analytics.getFullAnalysis s).mean = v ∧
    (Analytics.getFullAnalysis s).median = v ∧
    (Analytics.getFullAnalysis s).min = v ∧
    (Analytics.getFullAnalysis s).max = v ∧
    (Analytics.getFullAnalysis s).mode = ((Analytics.jsRound v : ℤ) : ℚ) ∧
    (Analytics.getFullAnalysis s).marginOfError = 0 := by
  have hs : s = List.replicate s.length v := List.eq_replicate_of_mem h2
  have hlen : s.length ≠ 0 := by
    simpa [List.length_eq_zero] using h1
  refine ⟨getMean_const s v h1 h2, getMedian_const s v h1 h2, ?_, ?_, ?_,
    moe_const s v h1 h2 _⟩
  · obtain ⟨a, t, rfl⟩ : ∃ a t, s = a :: t := by
      cases s with
      | nil => exact absurd rfl h1
      | cons a t => exact ⟨a, t, rfl⟩
    have ha : a = v := h2 a (by simp)
    simp only [Analytics.getFullAnalysis, Analytics.getMin, ha]
    exact foldl_min_const v t (fun x hx => h2 x (by simp [hx]))
  · obtain ⟨a, t, rfl⟩ : ∃ a t, s = a :: t := by
      cases s with
      | nil => exact absurd rfl h1
      | cons a t => exact ⟨a, t, rfl⟩
    have ha : a = v := h2 a (by simp)
    simp only [Analytics.getFullAnalysis, Analytics.getMax, ha]
    exact foldl_max_const v t (fun x hx => h2 x (by simp [hx]))
  · show Analytics.getMode s = ((Analytics.jsRound v : ℤ) : ℚ)
    conv_lhs => rw [hs]
    exact getMode_replicate s.length v hlen

/-- C4 witness: the constant array `[3, 3]` has mean, median, min, max `3`,
mode `jsRound 3` and margin of error `0`. -/
theorem c4_witness :
    (Analytics.getFullAnalysis [3, 3]).mean = 3 ∧
    (Analytics.getFullAnalysis [3, 3]).median = 3 ∧
    (Analytics.getFullAnalysis [3, 3]).min = 3 ∧
    (Analytics.getFullAnalysis [3, 3]).max = 3 ∧
    (Analytics.getFullAnalysis [3, 3]).mode = ((Analytics.jsRound 3 : ℤ) : ℚ) ∧
    (Analytics.getFullAnalysis [3, 3]).marginOfError = 0 :=
  c4_constant_samples [3, 3] 3 (by simp) (by simp)

/-! ## C1 -/

theorem startRun_oracleC1_eval :
    Benchmark.startRun oracleC1 0 ⟨1, 0, 3, 3⟩ 5 = some (1, [1, 1, 10]) := by
  have hmin : max (Analytics.reduceUncertainty 0 (1 / 100)) ((1 : ℚ)) = 1 := by
    norm_num [Analytics.reduceUncertainty]
  have hcal : Benchmark.getMaxCycles oracleC1 1 5 = some (1, 1) := by
    norm_num [Benchmark.getMaxCycles, Benchmark.getMaxCyclesLoop, Benchmark.cycle, oracleC1]
  have hsamp : Benchmark.getSamples oracleC1 1 3 3 0 = [1, 1, 10] := by
    norm_num [Benchmark.getSamples, Benchmark.extraGo, oracleC1, List.range_succ]
  simp only [Benchmark.startRun, hmin, hcal, hsamp]
  norm_num

/-- C1: counterexample.  A run whose sample set `[1, 1, 10]` plainly fails
the claimed acceptance check (`|median − mean| = 3 > mean · 0.1 = 0.4`) is
nevertheless surfaced as the result of the one and only attempt — there is no
acceptance check, no retry and no `maxTries` in `Benchmark.start`. -/
theorem c1_counterexample :
    Benchmark.startRun oracleC1 0 ⟨1, 0, 3, 3⟩ 5 = some (1, [1, 1, 10]) ∧
    (Benchmark.start oracleC1 0 ⟨1, 0, 3, 3⟩ 5).map (fun r => (r.count, r.times)) =
      some (1, [1, 1, 10]) ∧
    ¬ acceptanceCheck [1, 1, 10] := by
  refine ⟨startRun_oracleC1_eval, ?_, ?_⟩
  · simp [Benchmark.start, startRun_oracleC1_eval]
  · intro hacc
    have hmedian : Analytics.getMedian [1, 1, 10] = 1 := by
      norm_num [Analytics.getMedian, sortAsc, insertSorted, List.foldr, List.getD]
    have hmean : Analytics.getMean [1, 1, 10] = 4 := by
      norm_num [Analytics.getMean, List.sum_cons, List.sum_nil]
    have hskew := hacc.2
    rw [hmedian, hmean] at hskew
    norm_num at hskew

/-- C1 (amended): `Benchmark.start` performs exactly one
calibration → sampling → analysis pass and surfaces that analysis as the
result unconditionally: whenever it returns a result, the result's `stats`
is the full analysis of the single collected (normalized) sample set
produced by `startRun`, whether or not that sample set would pass any
acceptance criterion. -/
theorem c1_single_pass (oracle : ℕ → ℚ) (resolution : ℚ) (opts : RunOptions)
    (fuel : ℕ) (r : Benchmark.Result)
    (h : Benchmark.start oracle resolution opts fuel = some r) :
    r.stats = Analytics.getFullAnalysis r.times ∧
    Benchmark.startRun oracle resolution opts fuel = some (r.count, r.times) := by
  unfold Benchmark.start at h
  cases hrun : Benchmark.startRun oracle resolution opts fuel with
  | none => rw [hrun] at h; exact absurd h (by simp)
  | some p =>
    rw [hrun] at h
    injection h with h2
    subst h2
    exact ⟨rfl, rfl⟩

/-- C1 witness: the amended theorem applied to the concrete run of
`c1_counterexample`. -/
theorem c1_witness :
    (⟨1, [1, 1, 10], Analytics.getFullAnalysis [1, 1, 10]⟩ : Benchmark.Result).stats =
      Analytics.getFullAnalysis
        (⟨1, [1, 1, 10], Analytics.getFullAnalysis [1, 1, 10]⟩ : Benchmark.Result).times ∧
    Benchmark.startRun oracleC1 0 ⟨1, 0, 3, 3⟩ 5 =
      some ((⟨1, [1, 1, 10], Analytics.getFullAnalysis [1, 1, 10]⟩ : Benchmark.Result).count,
        (⟨1, [1, 1, 10], Analytics.getFullAnalysis [1, 1, 10]⟩ : Benchmark.Result).times) := by
  have hstart : Benchmark.start oracleC1 0 ⟨1, 0, 3, 3⟩ 5 =
      some ⟨1, [1, 1, 10], Analytics.getFullAnalysis [1, 1, 10]⟩ := by
    simp [Benchmark.start, startRun_oracleC1_eval]
  exact c1_single_pass oracleC1 0 ⟨1, 0, 3, 3⟩ 5 _ hstart

end Zakzak
